import Mathlib

/-!
Verification development for the telescopes cluster recommender.

The Go sources embedded here are:
* `recommender/ec2_vm_registry.go` (the `Ec2VmRegistry` candidate lookup and
  spot-price resolution with a Prometheus backend and an AWS direct-API fallback);
* `internal/app/telescopes/api/routes.go` (the HTTP handler for the
  recommendation endpoint).

Prices are modelled as rationals (the Go code uses float64; none of the
properties below is about rounding).  External collaborators (the product-info
catalog, the Prometheus query endpoint, the AWS EC2 endpoints) are modelled as
explicit environment functions gathered in `Env`, mirroring the fields of the
`Ec2VmRegistry` receiver plus the AWS session.
-/

namespace Telescopes

/-- An instance type as returned by the product-info catalog
(`productInfo.GetVmsWithCpu`). -/
structure Ec2Vm where
  vmType : String
  onDemandPrice : ℚ
  cpus : ℚ
  mem : ℚ
  gpus : ℚ
deriving DecidableEq

/-- The `VirtualMachine` struct built by `findVmsWithCpuUnits`. -/
structure VirtualMachine where
  vmType : String
  onDemandPrice : ℚ
  avgPrice : ℚ
  cpus : ℚ
  mem : ℚ
  gpus : ℚ
deriving DecidableEq

/-- One timestamped spot-price sample of the provider's spot-price history:
`(instance type, availability zone, time, price)`.  Time is in hours, as a
natural number. -/
structure SpotSample where
  instanceType : String
  az : String
  time : ℕ
  price : ℚ
deriving DecidableEq

/-- One availability-zone description, as returned by
`DescribeAvailabilityZones` (zone name and state). -/
structure AzDescription where
  zoneName : String
  state : String
deriving DecidableEq

/-- The environment of one `Ec2VmRegistry`: its external collaborators.
`promAvailable` is `e.prometheus != nil`; `promAnswer` maps a Prometheus query
string to the query outcome (an error, or the vector of resulting sample
values); `histResult` is the provider's spot-price history record (or the
failure of the `DescribeSpotPriceHistory` call); `now` is the current time in
hours, used as the `StartTime` of the history call. -/
structure Env where
  getVmsWithCpu : String → ℚ → Except String (List Ec2Vm)
  attrValues : Except String (List ℚ)
  describeAZs : String → Except String (List AzDescription)
  promAvailable : Bool
  promAnswer : String → Except String (List ℚ)
  histResult : Except String (List SpotSample)
  now : ℕ

/-- The `promQuery` format string of the source, applied to its three
arguments (region, instance type, zone regex). -/
def promQuery (region it azRegex : String) : String :=
  "avg(avg_over_time(aws_spot_current_price\x7bregion=\"" ++ region ++
  "\", instance_type=\"" ++ it ++ "\", availability_zone=~\"" ++ azRegex ++
  "\", product_description=\"Linux/UNIX\"\x7d[24h]))"

/-- `getSpotPriceAvgsFromPrometheus`: one query per instance type, in order;
any query error, or an empty result vector, aborts the whole attempt with an
error.  A non-empty vector contributes its first value for that type. -/
def getSpotPriceAvgsFromPrometheus (ans : String → Except String (List ℚ))
    (region : String) (zones : List String) :
    List String → Except String (List (String × ℚ))
  | [] => .ok []
  | it :: rest =>
    match ans (promQuery region it (String.intercalate "|" zones)) with
    | .error e => .error e
    | .ok [] => .error "aws_spot_current_price metric is empty"
    | .ok (v :: _) =>
      match getSpotPriceAvgsFromPrometheus ans region zones rest with
      | .error e => .error e
      | .ok m => .ok ((it, v) :: m)

/-- The samples the provider's history endpoint returns for a call with
`StartTime = now`.  Modelled from the spec: the spot-price-history API returns
timestamped (zone, instance type, price) samples, restricted to those at or
after the requested start time; the source passes `time.Now()` as `StartTime`,
so only the currently effective samples are returned. -/
def currentSamples (samples : List SpotSample) (now : ℕ) : List SpotSample :=
  samples.filter (fun s => decide (now ≤ s.time))

/-- The per-type price list built by `getCurrentSpotPrices`: for each history
entry of the type, one copy of its price per occurrence of its availability
zone in the requested zone list (the source appends once per matching element
of `zones`). -/
def pricesOf (zones : List String) (entries : List SpotSample) (t : String) : List ℚ :=
  (entries.filter (fun s => s.instanceType == t)).flatMap
    (fun s => (zones.filter (fun z => z == s.az)).map (fun _ => s.price))

/-- The averaging step of `getCurrentSpotPrices`: a type that collected no
sample is not a key of the map; a type whose sample count differs from the
zone count is skipped (the source comments: some instance types are not
available in all zones); otherwise the sum of its samples divided by the
number of zones. -/
def spotPriceAvg (zones : List String) (entries : List SpotSample) (t : String) : Option ℚ :=
  let prices := pricesOf zones entries t
  if prices.isEmpty then none
  else if prices.length = zones.length then
    some (prices.foldl (fun acc p => acc + p) 0 / (zones.length : ℚ))
  else none

/-- `getCurrentSpotPrices`: query the provider's spot-price history with
`StartTime = now`, then build the zone-average map. -/
def getCurrentSpotPrices (histResult : Except String (List SpotSample)) (now : ℕ)
    (zones : List String) : Except String (String → Option ℚ) :=
  match histResult with
  | .error e => .error e
  | .ok samples => .ok (spotPriceAvg zones (currentSamples samples now))

/-- The first loop of `findVmsWithCpuUnits`: for each requested vCPU value,
look the catalog up and convert each returned type to a `VirtualMachine` with
the placeholder spot price 99. -/
def mkVm (v : Ec2Vm) : VirtualMachine :=
  { vmType := v.vmType, onDemandPrice := v.onDemandPrice, avgPrice := 99,
    cpus := v.cpus, mem := v.mem, gpus := v.gpus }

/-- The catalog-gathering loop of `findVmsWithCpuUnits` (lines 64-80): any
catalog error aborts the call. -/
def gatherVms (cat : String → ℚ → Except String (List Ec2Vm)) (region : String) :
    List ℚ → Except String (List VirtualMachine)
  | [] => .ok []
  | cpu :: rest =>
    match cat region cpu with
    | .error e => .error e
    | .ok ec2Vms =>
      match gatherVms cat region rest with
      | .error e => .error e
      | .ok more => .ok (ec2Vms.map mkVm ++ more)

/-- Zone resolution of `findVmsWithCpuUnits` (lines 86-101): an empty zone set
triggers `DescribeAvailabilityZones`; its failure aborts the call; otherwise
the zones in state "available" are used. -/
def resolveZones (azApi : String → Except String (List AzDescription))
    (region : String) (zones : List String) : Except String (List String) :=
  if zones.isEmpty then
    match azApi region with
    | .error e => .error e
    | .ok azs => .ok ((azs.filter (fun az => az.state == "available")).map (fun az => az.zoneName))
  else .ok zones

/-- The spot-price resolution of `findVmsWithCpuUnits` (lines 103-122): try
the Prometheus backend when configured; on its failure (or when it is not
configured) fall back to the provider's direct spot-price API; only the
fallback's failure is an error of the whole call.  The result is the price
map, read through lookup. -/
def resolveAvgSpotPrices (env : Env) (region : String) (zones : List String)
    (instanceTypes : List String) : Except String (String → Option ℚ) :=
  let promFetched : Option (List (String × ℚ)) :=
    if env.promAvailable then
      match getSpotPriceAvgsFromPrometheus env.promAnswer region zones instanceTypes with
      | .ok m => some m
      | .error _ => none
    else none
  match promFetched with
  | some m => .ok (fun t => m.lookup t)
  | none => getCurrentSpotPrices env.histResult env.now zones

/-- The final loop of `findVmsWithCpuUnits` (lines 124-128): a type present in
the resolved price map gets that price; any other keeps its field as built. -/
def applyPrices (prices : String → Option ℚ) (vm : VirtualMachine) : VirtualMachine :=
  match prices vm.vmType with
  | some p => { vm with avgPrice := p }
  | none => vm

/-- `findVmsWithCpuUnits`: gather catalog entries per vCPU value, resolve the
zone set, resolve average spot prices, and write resolved prices into the
gathered list. -/
def findVmsWithCpuUnits (env : Env) (region : String) (zones : List String)
    (cpuUnits : List ℚ) : Except String (List VirtualMachine) :=
  match gatherVms env.getVmsWithCpu region cpuUnits with
  | .error e => .error e
  | .ok vms =>
    match resolveZones env.describeAZs region zones with
    | .error e => .error e
    | .ok zs =>
      match resolveAvgSpotPrices env region zs (vms.map (fun v => v.vmType)) with
      | .error e => .error e
      | .ok prices => .ok (vms.map (applyPrices prices))

/-- `getAvailableCpuUnits`: the attribute-domain values of the vCPU attribute,
straight from the product catalog. -/
def getAvailableCpuUnits (env : Env) : Except String (List ℚ) :=
  env.attrValues

/-- The price map produced by a run of `findVmsWithCpuUnits` (same pipeline up
to and including `resolveAvgSpotPrices`). -/
def resolvedPrices (env : Env) (region : String) (zones : List String)
    (cpuUnits : List ℚ) : Except String (String → Option ℚ) :=
  match gatherVms env.getVmsWithCpu region cpuUnits with
  | .error e => .error e
  | .ok g =>
    match resolveZones env.describeAZs region zones with
    | .error e => .error e
    | .ok zs => resolveAvgSpotPrices env region zs (g.map (fun v => v.vmType))

/-- The price a resolution result assigns to one instance type (`none` on a
failed resolution). -/
def priceAt (r : Except String (String → Option ℚ)) (t : String) : Option ℚ :=
  match r with
  | .error _ => none
  | .ok f => f t

/-- A Prometheus query outcome that makes `getSpotPriceAvgsFromPrometheus`
fail: a transport error, or an empty series. -/
def promBad (r : Except String (List ℚ)) : Bool :=
  match r with
  | .error _ => true
  | .ok [] => true
  | .ok (_ :: _) => false

theorem getSpotPriceAvgs_error_of_bad (ans : String → Except String (List ℚ))
    (region : String) (zones : List String) :
    ∀ instanceTypes : List String,
      (∃ it ∈ instanceTypes,
        promBad (ans (promQuery region it (String.intercalate "|" zones))) = true) →
      ∃ e, getSpotPriceAvgsFromPrometheus ans region zones instanceTypes = .error e := by
  intro l
  induction l with
  | nil =>
    rintro ⟨it, hmem, _⟩
    exact absurd hmem (List.not_mem_nil it)
  | cons hd tl ih =>
    rintro ⟨it, hmem, hbad⟩
    cases hq : ans (promQuery region hd (String.intercalate "|" zones)) with
    | error e => exact ⟨e, by simp [getSpotPriceAvgsFromPrometheus, hq]⟩
    | ok vs =>
      cases vs with
      | nil =>
        exact ⟨"aws_spot_current_price metric is empty",
          by simp [getSpotPriceAvgsFromPrometheus, hq]⟩
      | cons v vs2 =>
        have hit : it ∈ tl := by
          rcases List.mem_cons.mp hmem with h | h
          · subst h; rw [hq] at hbad; simp [promBad] at hbad
          · exact h
        obtain ⟨e, he⟩ := ih ⟨it, hit, hbad⟩
        exact ⟨e, by simp [getSpotPriceAvgsFromPrometheus, hq, he]⟩

/-- C1: if the metrics backend is configured but unreachable, or returns an
empty series for any one requested instance type, the whole metrics attempt is
discarded and the resolved price map is exactly the one of the direct
provider spot-price-history fallback for the whole set — never a partial merge
of metrics results with fallback results. -/
theorem spot_resolution_prom_failure_uses_fallback_wholly (env : Env) (region : String)
    (zones : List String) (instanceTypes : List String)
    (hprom : env.promAvailable = true)
    (hbad : ∃ it ∈ instanceTypes,
      promBad (env.promAnswer (promQuery region it (String.intercalate "|" zones))) = true) :
    resolveAvgSpotPrices env region zones instanceTypes
      = getCurrentSpotPrices env.histResult env.now zones := by
  obtain ⟨e, he⟩ := getSpotPriceAvgs_error_of_bad env.promAnswer region zones instanceTypes hbad
  simp [resolveAvgSpotPrices, hprom, he]

def envC1 : Env :=
  { getVmsWithCpu := fun _ _ => .ok []
    attrValues := .ok []
    describeAZs := fun _ => .ok []
    promAvailable := true
    promAnswer := fun _ => .ok []
    histResult := .ok [⟨"m5.large", "a", 0, 2⟩]
    now := 0 }

theorem spot_resolution_prom_failure_uses_fallback_wholly_witness :
    resolveAvgSpotPrices envC1 "r" ["a"] ["m5.large"]
      = getCurrentSpotPrices envC1.histResult envC1.now ["a"] :=
  spot_resolution_prom_failure_uses_fallback_wholly envC1 "r" ["a"] ["m5.large"] rfl
    ⟨"m5.large", by simp, rfl⟩

/-- C9: when the metrics backend is not configured or its attempt failed, and
the direct provider spot-price call then also fails, the whole candidate
lookup returns that error and no virtual-machine list at all. -/
theorem find_vms_error_when_both_sources_fail (env : Env) (region : String)
    (zones : List String) (cpuUnits : List ℚ) (g : List VirtualMachine)
    (zs : List String) (e : String)
    (hg : gatherVms env.getVmsWithCpu region cpuUnits = .ok g)
    (hz : resolveZones env.describeAZs region zones = .ok zs)
    (hp : env.promAvailable = false
      ∨ ∃ e2, getSpotPriceAvgsFromPrometheus env.promAnswer region zs
          (g.map (fun v => v.vmType)) = .error e2)
    (hf : getCurrentSpotPrices env.histResult env.now zs = .error e) :
    findVmsWithCpuUnits env region zones cpuUnits = .error e := by
  have hres : resolveAvgSpotPrices env region zs (g.map (fun v => v.vmType)) = .error e := by
    rcases hp with hp | ⟨e2, hp⟩
    · simp [resolveAvgSpotPrices, hp, hf]
    · cases hb : env.promAvailable with
      | false => simp [resolveAvgSpotPrices, hb, hf]
      | true => simp [resolveAvgSpotPrices, hb, hp, hf]
  simp [findVmsWithCpuUnits, hg, hz, hres]

def envC9 : Env :=
  { getVmsWithCpu := fun _ cpu => .ok [⟨"t1.micro", 3, cpu, 1, 0⟩]
    attrValues := .ok []
    describeAZs := fun _ => .ok []
    promAvailable := false
    promAnswer := fun _ => .error "prom down"
    histResult := .error "aws down"
    now := 0 }

theorem find_vms_error_when_both_sources_fail_witness :
    findVmsWithCpuUnits envC9 "r" ["a"] [1] = .error "aws down" :=
  find_vms_error_when_both_sources_fail envC9 "r" ["a"] [1]
    [⟨"t1.micro", 3, 99, 1, 1, 0⟩] ["a"] "aws down" rfl rfl (Or.inl rfl) rfl

/-- C5: with an empty requested zone set, the registry discovers the region's
availability zones and uses exactly those in state "available"; if the
discovery call fails, the operation fails with that error and neither pricing
strategy runs (the outcome is the same for every metrics answer and every
provider history). -/
theorem empty_zones_discovery_then_pricing (env : Env) (region : String) (cpuUnits : List ℚ) :
    (∀ azs, env.describeAZs region = .ok azs →
      resolveZones env.describeAZs region [] =
        .ok ((azs.filter (fun az => az.state == "available")).map (fun az => az.zoneName)))
    ∧ (∀ e g, env.describeAZs region = .error e →
        gatherVms env.getVmsWithCpu region cpuUnits = .ok g →
        ∀ pa hr n,
          findVmsWithCpuUnits
            { env with promAnswer := pa, histResult := hr, now := n }
            region [] cpuUnits = .error e) := by
  constructor
  · intro azs h
    simp [resolveZones, h]
  · intro e g he hg pa hr n
    have hg2 : gatherVms
        ({ env with promAnswer := pa, histResult := hr, now := n } : Env).getVmsWithCpu
        region cpuUnits = .ok g := hg
    have hz : resolveZones
        ({ env with promAnswer := pa, histResult := hr, now := n } : Env).describeAZs
        region [] = .error e := by
      simp [resolveZones, he]
    simp [findVmsWithCpuUnits, hg2, hz]

def envC5a : Env :=
  { getVmsWithCpu := fun _ _ => .ok []
    attrValues := .ok []
    describeAZs := fun _ => .ok [⟨"z1", "available"⟩, ⟨"z2", "impaired"⟩]
    promAvailable := false
    promAnswer := fun _ => .error "off"
    histResult := .ok []
    now := 0 }

def envC5b : Env :=
  { getVmsWithCpu := fun _ _ => .ok []
    attrValues := .ok []
    describeAZs := fun _ => .error "az down"
    promAvailable := false
    promAnswer := fun _ => .error "off"
    histResult := .ok []
    now := 0 }

theorem empty_zones_discovery_then_pricing_witness :
    resolveZones envC5a.describeAZs "r" [] = .ok ["z1"]
    ∧ findVmsWithCpuUnits
        { envC5b with promAnswer := fun _ => .ok [], histResult := .error "hist", now := 3 }
        "r" [] [] = .error "az down" :=
  ⟨(empty_zones_discovery_then_pricing envC5a "r" []).1
      [⟨"z1", "available"⟩, ⟨"z2", "impaired"⟩] rfl,
   (empty_zones_discovery_then_pricing envC5b "r" []).2 "az down" [] rfl rfl
      (fun _ => .ok []) (.error "hist") 3⟩

/-- The count of one instance type's history samples, each weighted by the
number of occurrences of its availability zone in the requested zone list
(`getCurrentSpotPrices` appends one price copy per occurrence). -/
def typeSampleWeight (entries : List SpotSample) (zones : List String) (t : String) : ℕ :=
  ((entries.filter (fun s => s.instanceType == t)).map (fun s => zones.count s.az)).sum

theorem pricesOf_length (zones : List String) (entries : List SpotSample) (t : String) :
    (pricesOf zones entries t).length = typeSampleWeight entries zones t := by
  unfold pricesOf typeSampleWeight
  induction entries.filter (fun s => s.instanceType == t) with
  | nil => simp
  | cons s rest ih =>
    rw [List.flatMap_cons, List.length_append, List.map_cons, List.sum_cons, ih,
      List.length_map, List.count_eq_countP, List.countP_eq_length_filter]

def c2samples : List SpotSample :=
  [⟨"t", "a", 0, 1⟩, ⟨"t", "a", 0, 3⟩]

/-- C2 counterexample: in the direct-API fallback, with requested zones
`["a", "b"]` and two history samples for type `"t"` both in zone `"a"`, the
sample count (2) equals the zone count (2), so `"t"` is assigned the average
2 — although it has no price sample at all in requested zone `"b"`.  This
refutes the claim that a price is assigned only when the type has samples
from every requested zone. -/
theorem current_spot_prices_missing_zone_still_included :
    priceAt (getCurrentSpotPrices (.ok c2samples) 0 ["a", "b"]) "t" = some 2
    ∧ ¬ ∃ s ∈ c2samples, s.instanceType = "t" ∧ s.az = "b" := by
  constructor
  · have hp : pricesOf ["a", "b"] (currentSamples c2samples 0) "t" = [1, 3] := by decide
    norm_num [priceAt, getCurrentSpotPrices, spotPriceAvg, hp]
  · decide

/-- C2 amended: in the direct-API fallback, a requested instance type is
assigned an averaged spot price exactly when the count of its current price
samples — weighted by the multiplicity of their zone in the requested zone
list — is non-zero and equal to the number of requested zones.  (When every
zone holds at most one sample per type this coincides with requiring a sample
from every requested zone; in general a zone with several samples can stand
in for a missing one.) -/
theorem current_spot_price_assigned_iff_weight_matches (samples : List SpotSample)
    (now : ℕ) (zones : List String) (t : String) (f : String → Option ℚ)
    (h : getCurrentSpotPrices (.ok samples) now zones = .ok f) :
    (f t).isSome = true
      ↔ (0 < typeSampleWeight (currentSamples samples now) zones t
          ∧ typeSampleWeight (currentSamples samples now) zones t = zones.length) := by
  have hf : spotPriceAvg zones (currentSamples samples now) = f := by
    have h2 := h
    simp [getCurrentSpotPrices] at h2
    exact h2
  rw [← hf, ← pricesOf_length]
  by_cases h0 : (pricesOf zones (currentSamples samples now) t).isEmpty
  · have hlen : (pricesOf zones (currentSamples samples now) t).length = 0 :=
      List.isEmpty_iff_length_eq_zero.mp h0
    simp [spotPriceAvg, h0, hlen]
  · have hpos : 0 < (pricesOf zones (currentSamples samples now) t).length := by
      cases he : pricesOf zones (currentSamples samples now) t with
      | nil => rw [he] at h0; simp at h0
      | cons a l => simp [he]
    by_cases h1 : (pricesOf zones (currentSamples samples now) t).length = zones.length
    · have hzpos : 0 < zones.length := h1 ▸ hpos
      simp [spotPriceAvg, h0, h1, hpos, hzpos]
    · simp [spotPriceAvg, h0, h1]

theorem current_spot_price_assigned_iff_weight_matches_witness :
    ((spotPriceAvg ["a", "b"] (currentSamples c2samples 0)) "t").isSome = true
      ↔ (0 < typeSampleWeight (currentSamples c2samples 0) ["a", "b"] "t"
          ∧ typeSampleWeight (currentSamples c2samples 0) ["a", "b"] "t"
              = (["a", "b"] : List String).length) :=
  current_spot_price_assigned_iff_weight_matches c2samples 0 ["a", "b"] "t"
    (spotPriceAvg ["a", "b"] (currentSamples c2samples 0)) rfl

/-- Modelled from the spec: `resolveSpotPrices` returns, for each requested
instance type, the average spot price across the given zones over a recent
(approximately 24-hour) window.  This definition follows the spec words and is
compared with the source-derived fallback `getCurrentSpotPrices`. -/
def specAvg24h (samples : List SpotSample) (now : ℕ) (zones : List String)
    (t : String) : Option ℚ :=
  let window := samples.filter (fun s => decide (now - 24 ≤ s.time ∧ s.time ≤ now))
  let relevant := window.filter (fun s => s.instanceType == t && zones.contains s.az)
  if relevant.isEmpty then none
  else some ((relevant.map (fun s => s.price)).foldl (fun a b => a + b) 0
      / (relevant.length : ℚ))

def c4samples : List SpotSample :=
  [⟨"t", "a", 13, 2⟩, ⟨"t", "a", 24, 4⟩]

/-- C4 counterexample: the direct-API fallback passes the current time as the
history start, so with a sample of price 2 eleven hours old and a current
sample of price 4 it returns 4 for type `"t"` — while the average over the
24-hour window the claim describes is 3.  The fallback path therefore does not
average over a 24-hour window. -/
theorem fallback_is_not_24h_window :
    priceAt (getCurrentSpotPrices (.ok c4samples) 24 ["a"]) "t" = some 4
    ∧ specAvg24h c4samples 24 ["a"] "t" = some 3
    ∧ priceAt (getCurrentSpotPrices (.ok c4samples) 24 ["a"]) "t"
        ≠ specAvg24h c4samples 24 ["a"] "t" := by
  have h1 : priceAt (getCurrentSpotPrices (.ok c4samples) 24 ["a"]) "t" = some 4 := by
    have hp : pricesOf ["a"] (currentSamples c4samples 24) "t" = [4] := by decide
    norm_num [priceAt, getCurrentSpotPrices, spotPriceAvg, hp]
  have h2 : specAvg24h c4samples 24 ["a"] "t" = some 3 := by
    have hw : c4samples.filter (fun s => decide (24 - 24 ≤ s.time ∧ s.time ≤ 24))
        = c4samples := by decide
    have hr : c4samples.filter
        (fun s => s.instanceType == "t" && (["a"] : List String).contains s.az)
        = c4samples := by decide
    simp only [specAvg24h]
    rw [hw, hr]
    norm_num [c4samples]
  refine ⟨h1, h2, ?_⟩
  rw [h1, h2]
  norm_num

/-- C4 amended: the metrics-backend path delegates the 24-hour averaging to
the backend (the `[24h]` range in `promQuery`), but the direct-API fallback
averages only the currently effective spot prices — its result is unchanged by
any sample that is not current at the call time. -/
theorem fallback_uses_only_current_samples (samples1 samples2 : List SpotSample)
    (now : ℕ) (zones : List String)
    (h : currentSamples samples1 now = currentSamples samples2 now) :
    getCurrentSpotPrices (.ok samples1) now zones
      = getCurrentSpotPrices (.ok samples2) now zones := by
  simp [getCurrentSpotPrices, h]

theorem fallback_uses_only_current_samples_witness :
    getCurrentSpotPrices (.ok [(⟨"t", "a", 0, 7⟩ : SpotSample)]) 5 ["a"]
      = getCurrentSpotPrices (.ok []) 5 ["a"] :=
  fallback_uses_only_current_samples [⟨"t", "a", 0, 7⟩] [] 5 ["a"] (by decide)

theorem mem_gatherVms (cat : String → ℚ → Except String (List Ec2Vm)) (region : String) :
    ∀ (cpuUnits : List ℚ) (g : List VirtualMachine),
      gatherVms cat region cpuUnits = .ok g →
      ∀ vm ∈ g, ∃ cpu ∈ cpuUnits, ∃ l, cat region cpu = .ok l ∧ ∃ w ∈ l, vm = mkVm w := by
  intro cpuUnits
  induction cpuUnits with
  | nil =>
    intro g hg vm hvm
    have hnil : ([] : List VirtualMachine) = g := by simpa [gatherVms] using hg
    rw [← hnil] at hvm
    exact absurd hvm (List.not_mem_nil vm)
  | cons cpu rest ih =>
    intro g hg vm hvm
    cases hc : cat region cpu with
    | error e => simp [gatherVms, hc] at hg
    | ok vmsHead =>
      cases hr : gatherVms cat region rest with
      | error e => simp [gatherVms, hc, hr] at hg
      | ok more =>
        have hg2 : vmsHead.map mkVm ++ more = g := by simpa [gatherVms, hc, hr] using hg
        rw [← hg2] at hvm
        rcases List.mem_append.mp hvm with h | h
        · obtain ⟨w, hw, hweq⟩ := List.mem_map.mp h
          exact ⟨cpu, List.mem_cons_self cpu rest, vmsHead, hc, w, hw, hweq.symm⟩
        · obtain ⟨cpu2, hcpu2, l, hl, w, hw, heq⟩ := ih more hr vm h
          exact ⟨cpu2, List.mem_cons_of_mem _ hcpu2, l, hl, w, hw, heq⟩

theorem gatherVms_avgPrice (cat : String → ℚ → Except String (List Ec2Vm))
    (region : String) (cpuUnits : List ℚ) (g : List VirtualMachine)
    (hg : gatherVms cat region cpuUnits = .ok g) :
    ∀ vm ∈ g, vm.avgPrice = 99 := by
  intro vm hvm
  obtain ⟨cpu, _, l, _, w, _, heq⟩ := mem_gatherVms cat region cpuUnits g hg vm hvm
  rw [heq]
  rfl

theorem applyPrices_vmType (prices : String → Option ℚ) (vm : VirtualMachine) :
    (applyPrices prices vm).vmType = vm.vmType := by
  unfold applyPrices
  cases prices vm.vmType <;> rfl

theorem applyPrices_cpus (prices : String → Option ℚ) (vm : VirtualMachine) :
    (applyPrices prices vm).cpus = vm.cpus := by
  unfold applyPrices
  cases prices vm.vmType <;> rfl

theorem applyPrices_none (prices : String → Option ℚ) (vm : VirtualMachine)
    (h : prices vm.vmType = none) : applyPrices prices vm = vm := by
  simp [applyPrices, h]

theorem findVms_ok_decomp (env : Env) (region : String) (zones : List String)
    (cpuUnits : List ℚ) (vms : List VirtualMachine)
    (h : findVmsWithCpuUnits env region zones cpuUnits = .ok vms) :
    ∃ g zs prices,
      gatherVms env.getVmsWithCpu region cpuUnits = .ok g
      ∧ resolveZones env.describeAZs region zones = .ok zs
      ∧ resolveAvgSpotPrices env region zs (g.map (fun v => v.vmType)) = .ok prices
      ∧ vms = g.map (applyPrices prices) := by
  cases hg : gatherVms env.getVmsWithCpu region cpuUnits with
  | error e => simp [findVmsWithCpuUnits, hg] at h
  | ok g =>
    cases hz : resolveZones env.describeAZs region zones with
    | error e => simp [findVmsWithCpuUnits, hg, hz] at h
    | ok zs =>
      cases hp : resolveAvgSpotPrices env region zs (g.map (fun v => v.vmType)) with
      | error e => simp [findVmsWithCpuUnits, hg, hz, hp] at h
      | ok prices =>
        refine ⟨g, zs, prices, rfl, rfl, hp, ?_⟩
        have h2 : g.map (applyPrices prices) = vms := by
          simpa [findVmsWithCpuUnits, hg, hz, hp] using h
        exact h2.symm

def envC3 : Env :=
  { getVmsWithCpu := fun _ cpu => if cpu == 1 then .ok [⟨"t", 5, 1, 2, 0⟩] else .ok []
    attrValues := .ok [1]
    describeAZs := fun _ => .ok []
    promAvailable := false
    promAnswer := fun _ => .error "off"
    histResult := .ok []
    now := 0 }

/-- C3 counterexample: in a run where neither the metrics backend (not
configured) nor the direct provider API (no history samples) resolves a spot
price for type "t", the returned VirtualMachine still carries the definite
numeric spot price 99 — the placeholder set at construction — not an absent
value.  This refutes the claim that such a type has no numeric spot price. -/
theorem unresolved_type_has_numeric_price_99 :
    findVmsWithCpuUnits envC3 "r" ["a"] [1]
      = .ok [{ vmType := "t", onDemandPrice := 5, avgPrice := 99,
               cpus := 1, mem := 2, gpus := 0 }] := by
  rfl

/-- C3 amended: an instance type whose spot price is resolved by neither the
metrics backend nor the direct-API fallback keeps the placeholder spot price
99 assigned at construction; by convention such a type is recognizable as
spot-unresolved (no resolved price is ever written for it), but its price
field is numeric, not absent. -/
theorem unresolved_type_keeps_placeholder_99 (env : Env) (region : String)
    (zones : List String) (cpuUnits : List ℚ) (vms : List VirtualMachine)
    (prices : String → Option ℚ)
    (h : findVmsWithCpuUnits env region zones cpuUnits = .ok vms)
    (hp : resolvedPrices env region zones cpuUnits = .ok prices) :
    ∀ vm ∈ vms, prices vm.vmType = none → vm.avgPrice = 99 := by
  obtain ⟨g, zs, prices2, hg, hz, hp2, hvms⟩ := findVms_ok_decomp env region zones cpuUnits vms h
  have hpeq : prices2 = prices := by
    have h3 := hp
    simp [resolvedPrices, hg, hz, hp2] at h3
    exact h3
  subst hpeq
  subst hvms
  intro vm hvm hnone
  obtain ⟨v, hv, hveq⟩ := List.mem_map.mp hvm
  have h99 : v.avgPrice = 99 := gatherVms_avgPrice _ _ _ _ hg v hv
  have htype : v.vmType = vm.vmType := by rw [← hveq, applyPrices_vmType]
  have hid : applyPrices prices2 v = v := applyPrices_none _ _ (htype ▸ hnone)
  rw [← hveq, hid, h99]

theorem unresolved_type_keeps_placeholder_99_witness :
    spotPriceAvg ["a"] (currentSamples [] 0) "t" = none
    ∧ ({ vmType := "t", onDemandPrice := 5, avgPrice := 99,
         cpus := 1, mem := 2, gpus := 0 } : VirtualMachine).avgPrice = 99 :=
  ⟨rfl,
   unresolved_type_keeps_placeholder_99 envC3 "r" ["a"] [1]
     [{ vmType := "t", onDemandPrice := 5, avgPrice := 99, cpus := 1, mem := 2, gpus := 0 }]
     (spotPriceAvg ["a"] (currentSamples [] 0)) rfl rfl
     { vmType := "t", onDemandPrice := 5, avgPrice := 99, cpus := 1, mem := 2, gpus := 0 }
     (List.mem_singleton.mpr rfl) rfl⟩

/-- The JSON body of a reply of the recommendation handler: the bad-request
body (keys code, message, cause), the internal-error body (keys status,
message), or a serialized recommendation response. -/
inductive ReplyBody (Resp : Type) where
  | errorBody (code message cause : String)
  | statusBody (status : Nat) (message : String)
  | respBody (resp : Resp)

/-- One reply of the handler: an HTTP status and a JSON body. -/
structure GinReply (Resp : Type) where
  status : Nat
  body : ReplyBody Resp

/-- `recommendClusterSetup` of routes.go: bind the JSON body; on a bind
failure reply 400 with the bad-params body; otherwise invoke the engine and
reply 500 with its error, or 200 with its response.  The request type and the
engine are parameters: `ClusterRecommendationReq` and `Engine.RecommendCluster`
live outside this repository slice. -/
def recommendClusterSetup {Req Resp : Type} (provider region : String)
    (bindJSON : Except String Req)
    (recommendCluster : String → String → Req → Except String Resp) : GinReply Resp :=
  match bindJSON with
  | .error err =>
    { status := 400,
      body := .errorBody "bad_params" "invalid zone(s) or network performance" err }
  | .ok req =>
    match recommendCluster provider region req with
    | .error err => { status := 500, body := .statusBody 500 err }
    | .ok resp => { status := 200, body := .respBody resp }

/-- C6: a request body that fails to deserialize yields the client-error
status 400 with a machine-readable kind ("bad_params") and a human-readable
message, and the engine is not invoked (the reply is the same for every
engine); a bound request on which the engine errors yields the server-error
status 500. -/
theorem recommend_cluster_setup_error_mapping {Req Resp : Type} (provider region : String)
    (bindJSON : Except String Req)
    (recommendCluster : String → String → Req → Except String Resp) :
    (∀ err, bindJSON = .error err →
      (recommendClusterSetup provider region bindJSON recommendCluster).status = 400
      ∧ (recommendClusterSetup provider region bindJSON recommendCluster).body
          = ReplyBody.errorBody "bad_params" "invalid zone(s) or network performance" err
      ∧ ∀ rc2 : String → String → Req → Except String Resp,
          recommendClusterSetup provider region bindJSON rc2
            = recommendClusterSetup provider region bindJSON recommendCluster)
    ∧ (∀ req err, bindJSON = .ok req →
        recommendCluster provider region req = .error err →
        (recommendClusterSetup provider region bindJSON recommendCluster).status = 500) := by
  constructor
  · intro err hb
    subst hb
    exact ⟨rfl, rfl, fun rc2 => rfl⟩
  · intro req err hb he
    subst hb
    simp [recommendClusterSetup, he]

def engineAlwaysErr : String → String → Nat → Except String Nat :=
  fun _ _ _ => .error "infeasible"

theorem recommend_cluster_setup_error_mapping_witness :
    ((recommendClusterSetup "ec2" "eu" (.error "boom") engineAlwaysErr).status = 400
      ∧ (recommendClusterSetup "ec2" "eu" (.error "boom") engineAlwaysErr).body
          = ReplyBody.errorBody "bad_params" "invalid zone(s) or network performance" "boom"
      ∧ ∀ rc2 : String → String → Nat → Except String Nat,
          recommendClusterSetup "ec2" "eu" ((.error "boom") : Except String Nat) rc2
            = recommendClusterSetup "ec2" "eu" (.error "boom") engineAlwaysErr)
    ∧ (recommendClusterSetup "ec2" "eu" (.ok 1) engineAlwaysErr).status = 500 :=
  ⟨(recommend_cluster_setup_error_mapping "ec2" "eu" (.error "boom") engineAlwaysErr).1
      "boom" rfl,
   (recommend_cluster_setup_error_mapping "ec2" "eu" (.ok 1) engineAlwaysErr).2
      1 "infeasible" rfl rfl⟩

/-- The request bounds of a recommendation request (spec data model): node
count bounds and the on-demand fraction. -/
structure ClusterRecommendationReq where
  sumCpu : ℚ
  sumMem : ℚ
  minNodes : ℕ
  maxNodes : ℕ
  onDemandPct : ℚ
deriving DecidableEq

inductive EngineError where
  | invalidRequest (message : String)
  | internal (message : String)
deriving DecidableEq

/-- Modelled from the spec: `Engine.RecommendCluster` is not under src/
(routes.go only calls it).  The spec's error taxonomy has InvalidRequest
(bound violations such as min greater than max, or an on-demand fraction
outside the unit interval) rejected before any pricing work begins; the
pricing work (catalog lookup, zone discovery, spot-price resolution) is the
`pricing` computation, consumed only after validation passes. -/
def recommendClusterModel (pricing : Except String (List VirtualMachine))
    (req : ClusterRecommendationReq) : Except EngineError (List VirtualMachine) :=
  if req.maxNodes < req.minNodes ∨ req.onDemandPct < 0 ∨ 1 < req.onDemandPct then
    .error (.invalidRequest "invalid request")
  else
    match pricing with
    | .error e => .error (.internal e)
    | .ok vms => .ok vms

/-- C7: a request violating the bounds (min greater than max, or on-demand
fraction outside the unit interval) is rejected as invalid whatever the
outcome of the pricing work — the pricing computation is never consulted. -/
theorem invalid_request_rejected_before_pricing (req : ClusterRecommendationReq)
    (h : req.maxNodes < req.minNodes ∨ req.onDemandPct < 0 ∨ 1 < req.onDemandPct) :
    ∀ pricing, recommendClusterModel pricing req
      = .error (.invalidRequest "invalid request") := by
  intro pricing
  unfold recommendClusterModel
  rw [if_pos h]

def reqBad : ClusterRecommendationReq :=
  { sumCpu := 8, sumMem := 16, minNodes := 5, maxNodes := 2, onDemandPct := 0 }

theorem invalid_request_rejected_before_pricing_witness :
    recommendClusterModel (.ok []) reqBad = .error (.invalidRequest "invalid request") :=
  invalid_request_rejected_before_pricing reqBad (Or.inl (by decide)) (.ok [])

/-- Modelled from the spec: the contract of the external product-catalog
lookup GetVmsWithCpu (the ec2_productinfo package is not under src/): for a
requested vCPU attribute value it returns only instance types whose vCPU
count equals that value exactly. -/
def CatalogMatchesCpu (cat : String → ℚ → Except String (List Ec2Vm)) (region : String)
    (cpuUnits : List ℚ) : Prop :=
  ∀ cpu ∈ cpuUnits, ∀ l, cat region cpu = .ok l → ∀ w ∈ l, w.cpus = cpu

/-- C8: under the catalog contract, every VirtualMachine returned by the
candidate lookup has a vCPU count equal to one of the supplied discrete vCPU
bucket values. -/
theorem find_vms_cpus_match_buckets (env : Env) (region : String) (zones : List String)
    (cpuUnits : List ℚ) (vms : List VirtualMachine)
    (hcat : CatalogMatchesCpu env.getVmsWithCpu region cpuUnits)
    (h : findVmsWithCpuUnits env region zones cpuUnits = .ok vms) :
    ∀ vm ∈ vms, vm.cpus ∈ cpuUnits := by
  obtain ⟨g, zs, prices, hg, hz, hp, hvms⟩ := findVms_ok_decomp env region zones cpuUnits vms h
  subst hvms
  intro vm hvm
  obtain ⟨v, hv, hveq⟩ := List.mem_map.mp hvm
  obtain ⟨cpu, hcpu, l, hl, w, hw, hweq⟩ :=
    mem_gatherVms env.getVmsWithCpu region cpuUnits g hg v hv
  have hcpus : v.cpus = cpu := by
    rw [hweq]
    exact hcat cpu hcpu l hl w hw
  have hsame : vm.cpus = v.cpus := by rw [← hveq, applyPrices_cpus]
  rw [hsame, hcpus]
  exact hcpu

def envC8 : Env :=
  { getVmsWithCpu := fun _ cpu => .ok [⟨"x", 1, cpu, 4, 0⟩]
    attrValues := .ok [2]
    describeAZs := fun _ => .ok []
    promAvailable := false
    promAnswer := fun _ => .error "off"
    histResult := .ok []
    now := 0 }

theorem find_vms_cpus_match_buckets_witness :
    ({ vmType := "x", onDemandPrice := 1, avgPrice := 99,
       cpus := 2, mem := 4, gpus := 0 } : VirtualMachine).cpus ∈ [(2 : ℚ)] :=
  find_vms_cpus_match_buckets envC8 "r" ["a"] [2]
    [{ vmType := "x", onDemandPrice := 1, avgPrice := 99, cpus := 2, mem := 4, gpus := 0 }]
    (by
      intro cpu _ l hl w hw
      simp [envC8] at hl
      subst hl
      simp at hw
      subst hw
      rfl)
    rfl
    { vmType := "x", onDemandPrice := 1, avgPrice := 99, cpus := 2, mem := 4, gpus := 0 }
    (List.mem_singleton.mpr rfl)

end Telescopes
